import Mathlib

/-!
Shallow embedding of the Terminusa economy core (`src/xxx.py`).

The sqlite connection is modelled as a pair of stores: `durable` (what has
been committed to disk) and `current` (the pending state seen by cursors).
`DatabaseManager.transaction` is a context manager over that single shared
connection: the body's statements mutate `current`; on normal exit the
connection commits (`durable := current`); on an exception it rolls back
(`current := durable`) and re-raises.  Because the connection is shared, a
nested `with transaction()` block that commits also commits every pending
write of the enclosing block — exactly as in the Python source.

Machine integers of the sqlite columns are modelled as `Int` (Python ints
are unbounded); table rows are association lists, faithful to the row
tables of `create_tables`.
-/

namespace Terminusa

/-- Exceptions that the embedded code can raise: `valueError` (bcrypt on a
malformed stored hash), `keyError` (dict subscript on a missing key),
`storageError` (a sqlite fault during a write, spec `StorageFailure`). -/
inductive PyErr where
  | valueError
  | keyError
  | storageError
deriving DecidableEq

/-- Row of the `players` table (key `username` kept outside the row). -/
structure PlayerRow where
  password_hash : String
  level : Int
  tac_balance : Int
  health : Int
deriving DecidableEq

/-- Row of the `marketplace` table. -/
structure Listing where
  listing_id : Nat
  seller : String
  item_name : String
  price : Int
  quantity : Int
deriving DecidableEq

/-- Durable state: the four tables the claims are about.  An unlock row is
`(player_id, achievement_id, unlocked_at)`; an inventory row is
`(player_id, item_name, quantity)`. -/
structure Store where
  players : List (String × PlayerRow)
  inventory : List (String × String × Int)
  marketplace : List Listing
  unlocks : List (String × Nat × Nat)
deriving DecidableEq

/-- The single shared sqlite connection: committed state and pending state. -/
structure Conn where
  durable : Store
  current : Store
deriving DecidableEq

/-- Commit: `conn.commit()` makes the pending state durable. -/
def commit (c : Conn) : Conn := ⟨c.current, c.current⟩

/-- Embedding of `DatabaseManager.transaction`: run the body on the pending
state; commit on success, roll back (`current := durable`) and re-raise on
an exception.  The body here is a single-shot cursor program; operations
that nest further transactions (`purchase_listing`, `create_listing`) are
modelled explicitly below because their inner commits act on the whole
connection. -/
def withTransaction (c : Conn) (body : Store → Except PyErr (Store × α)) :
    Conn × Except PyErr α :=
  match body c.current with
  | .ok (s, a) => (commit { c with current := s }, .ok a)
  | .error e => ({ c with current := c.durable }, .error e)

/-! ### Table primitives -/

/-- SELECT on `players` by username (`fetchone`). -/
def findPlayer (ps : List (String × PlayerRow)) (u : String) : Option PlayerRow :=
  (ps.find? (fun e => e.1 == u)).map (·.2)

/-- INSERT OR REPLACE on `players`: sqlite deletes the conflicting row and
inserts the new one. -/
def upsertPlayer (ps : List (String × PlayerRow)) (u : String) (r : PlayerRow) :
    List (String × PlayerRow) :=
  (u, r) :: ps.filter (fun e => e.1 != u)

/-- UPDATE players SET tac_balance = tac_balance + amt WHERE username = u
(a no-op when no row matches, as in sqlite). -/
def creditPlayer (ps : List (String × PlayerRow)) (u : String) (amt : Int) :
    List (String × PlayerRow) :=
  ps.map (fun e => if e.1 == u then (e.1, { e.2 with tac_balance := e.2.tac_balance + amt }) else e)

/-- SELECT quantity FROM inventory WHERE player_id = u AND item_name = i. -/
def storedInv (s : Store) (u i : String) : Option Int :=
  (s.inventory.find? (fun r => r.1 == u && r.2.1 == i)).map (·.2.2)

/-- SELECT on `marketplace` by listing id (`fetchone`). -/
def mktFind (m : List Listing) (lid : Nat) : Option Listing :=
  m.find? (fun l => l.listing_id == lid)

/-- INTEGER PRIMARY KEY auto-assignment: one more than the largest id. -/
def nextListingId (m : List Listing) : Nat :=
  m.foldl (fun a l => max a l.listing_id) 0 + 1

/-- Does an unlock row for (u, aid) exist? -/
def hasUnlock (R : List (String × Nat × Nat)) (u : String) (aid : Nat) : Bool :=
  R.any (fun r => r.1 == u && r.2.1 == aid)

/-- Timestamps of the unlock rows for (u, aid), in table order. -/
def unlockRows (R : List (String × Nat × Nat)) (u : String) (aid : Nat) : List Nat :=
  R.filterMap (fun r => if r.1 == u && r.2.1 == aid then some r.2.2 else none)

/-- INSERT OR IGNORE INTO player_achievements VALUES (u, aid, t): ignored
when a row with the primary key (u, aid) already exists. -/
def insertUnlock (R : List (String × Nat × Nat)) (u : String) (aid : Nat) (t : Nat) :
    List (String × Nat × Nat) :=
  if hasUnlock R u aid then R else R ++ [(u, aid, t)]

/-! ### In-memory player object and inventory dict -/

/-- The in-memory `Player` object: its fields mirror the python attributes;
`inventory` is the python dict (association list keyed by item name). -/
structure PlayerMem where
  username : String
  password_hash : String
  level : Int
  tac_balance : Int
  health : Int
  inventory : List (String × Int)
deriving DecidableEq

/-- Python `dict.get(item, 0)`-backed lookup on the inventory dict. -/
def invLookup (inv : List (String × Int)) (i : String) : Option Int :=
  (inv.find? (fun e => e.1 == i)).map (·.2)

/-- Python `inventory.get(item, 0)`. -/
def invGetD (inv : List (String × Int)) (i : String) : Int :=
  (invLookup inv i).getD 0

/-- Python dict assignment `inventory[item] = v`: update in place when the
key exists, append otherwise. -/
def invSet (inv : List (String × Int)) (i : String) (v : Int) : List (String × Int) :=
  if inv.any (fun e => e.1 == i) then
    inv.map (fun e => if e.1 == i then (i, v) else e)
  else inv ++ [(i, v)]

/-- Python `del inventory[item]`. -/
def invDelete (inv : List (String × Int)) (i : String) : List (String × Int) :=
  inv.filter (fun e => e.1 != i)

/-- In-memory effect of `Player.add_item` on the dict:
`inventory[item] = inventory.get(item, 0) + quantity`. -/
def addItemInv (inv : List (String × Int)) (i : String) (q : Int) : List (String × Int) :=
  invSet inv i (invGetD inv i + q)

/-- In-memory effect of `Player.remove_item` on the dict.  The guard is
`inventory.get(item, 0) >= quantity`; inside it, `inventory[item] -= quantity`
raises `KeyError` when the key is absent (only possible for `quantity ≤ 0`);
a resulting quantity of exactly 0 deletes the entry.  Returns the python
return value (`True`/`False`) with the new dict. -/
def removeItemInv (inv : List (String × Int)) (i : String) (q : Int) :
    Except PyErr (Bool × List (String × Int)) :=
  if invGetD inv i ≥ q then
    match invLookup inv i with
    | none => .error .keyError
    | some held =>
        let n := held - q
        .ok (true, if n = 0 then invDelete inv i else invSet inv i n)
  else .ok (false, inv)

/-! ### Persistence operations -/

/-- Cursor program of `Player.save_inventory`: DELETE this player's rows,
then INSERT one row per dict entry, all in one transaction. -/
def save_inventory_tx (s : Store) (u : String) (inv : List (String × Int)) : Store :=
  { s with inventory :=
      s.inventory.filter (fun r => r.1 != u) ++ inv.map (fun e => (u, e.1, e.2)) }

/-- Embedding of `Player.save_inventory` (its own transaction, committing
on the shared connection). -/
def save_inventory (p : PlayerMem) (c : Conn) : Conn :=
  (withTransaction c (fun s => .ok (save_inventory_tx s p.username p.inventory, ()))).1

/-- Embedding of `DatabaseManager.save_player` (one transaction doing the
INSERT OR REPLACE of the whole players row).  `fault` injects a sqlite
`StorageFailure` raised during the write; `false` is normal operation. -/
def save_player (p : PlayerMem) (fault : Bool) (c : Conn) : Conn × Except PyErr Unit :=
  withTransaction c (fun s =>
    if fault then .error .storageError
    else
      let row : PlayerRow := ⟨p.password_hash, p.level, p.tac_balance, p.health⟩
      .ok ({ s with players := upsertPlayer s.players p.username row }, ()))

/-- Embedding of `Player.save`: `save_player` then `save_inventory`, the
whole body wrapped in `try/except` that prints the exception and returns
normally — a propagated error is swallowed, which `.ok ()` in the error
branch records. -/
def save (p : PlayerMem) (fault : Bool) (c : Conn) : Conn × Except PyErr Unit :=
  match save_player p fault c with
  | (c1, .ok _) => (save_inventory p c1, .ok ())
  | (c1, .error _) => (c1, .ok ())

/-- Embedding of `Player.add_item`: mutate the dict, then `save_inventory`
(which opens and commits its own transaction). -/
def add_item (p : PlayerMem) (c : Conn) (i : String) (q : Int) : PlayerMem × Conn :=
  let p' := { p with inventory := addItemInv p.inventory i q }
  (p', save_inventory p' c)

/-- Embedding of `Player.remove_item`: on success the mutated dict is saved
(its own transaction); on the failed guard nothing changes and `False` is
returned; a `KeyError` propagates with nothing mutated. -/
def remove_item (p : PlayerMem) (c : Conn) (i : String) (q : Int) :
    Except PyErr (Bool × PlayerMem × Conn) :=
  match removeItemInv p.inventory i q with
  | .error e => .error e
  | .ok (true, inv') =>
      let p' := { p with inventory := inv' }
      .ok (true, p', save_inventory p' c)
  | .ok (false, _) => .ok (false, p, c)

/-- Embedding of `Game.check_achievements`: one transaction doing an
INSERT OR IGNORE per achievement id, with `CURRENT_TIMESTAMP = t`. -/
def check_achievements (u : String) (aids : List Nat) (t : Nat) (c : Conn) : Conn :=
  commit { c with current :=
    { c.current with unlocks := aids.foldl (fun R aid => insertUnlock R u aid t) c.current.unlocks } }

/-! ### Game operations -/

/-- Outcome of `Game.purchase_listing` (the python prints a message and
returns `None` in each case; the constructors name the three exits). -/
inductive PurchaseResult where
  | notFound
  | insufficientFunds
  | success
deriving DecidableEq

/-- Embedding of `Game.purchase_listing`, `t` standing for
`CURRENT_TIMESTAMP` during the achievement insert.  The outer
`with transaction()` commits on every normal exit (including the two early
returns, which have written nothing).  On the success path, in source
order: the buyer's balance is debited on the in-memory object only; the
seller's row is credited by an UPDATE on the pending state; `add_item`
saves the buyer's inventory and thereby commits the shared connection
mid-purchase; the listing row is deleted; `check_achievements` commits
again; the outer block then commits. -/
def purchase_listing (p : PlayerMem) (c : Conn) (lid : Nat) (t : Nat) :
    PlayerMem × Conn × PurchaseResult :=
  match mktFind c.current.marketplace lid with
  | none => (p, commit c, .notFound)
  | some l =>
      let total := l.price * l.quantity
      if p.tac_balance < total then
        (p, commit c, .insufficientFunds)
      else
        let p1 := { p with tac_balance := p.tac_balance - total }
        let c1 := { c with current :=
          { c.current with players := creditPlayer c.current.players l.seller total } }
        let pc2 := add_item p1 c1 l.item_name l.quantity
        let c3 := { pc2.2 with current :=
          { pc2.2.current with marketplace := pc2.2.current.marketplace.filter (fun m => m.listing_id != lid) } }
        let c4 := check_achievements pc2.1.username [3] t c3
        (pc2.1, commit c4, .success)

/-- Outcome of `Game.create_listing`. -/
inductive CreateResult where
  | itemNotHeld
  | insufficientQuantity
  | success
deriving DecidableEq

/-- First half of the `create_listing` success path: the transaction that
INSERTs the marketplace row and commits. -/
def create_listing_insert (c : Conn) (u : String) (i : String) (price q : Int) : Conn :=
  commit { c with current :=
    { c.current with marketplace :=
        c.current.marketplace ++ [⟨nextListingId c.current.marketplace, u, i, price, q⟩] } }

/-- Embedding of `Game.create_listing` with the interactive inputs
(`item_name`, `quantity`, `price`) as arguments.  The membership and
`quantity > available` checks run against the in-memory inventory dict
before any transaction; the INSERT then runs and commits in its own
transaction; `remove_item` afterwards deducts the inventory in a second,
separate transaction. -/
def create_listing (p : PlayerMem) (c : Conn) (i : String) (q price : Int) :
    Except PyErr (PlayerMem × Conn × CreateResult) :=
  match invLookup p.inventory i with
  | none => .ok (p, c, .itemNotHeld)
  | some available =>
      if available < q then .ok (p, c, .insufficientQuantity)
      else
        let c1 := create_listing_insert c p.username i price q
        match remove_item p c1 i q with
        | .ok r => .ok (r.2.1, r.2.2, .success)
        | .error e => .error e

/-- Embedding of `Game.handle_defeat`: penalty `min(50, balance)` debited
from the in-memory object, health reset to 100, then `Player.save`. -/
def handle_defeat (p : PlayerMem) (c : Conn) : PlayerMem × Conn :=
  let penalty := min 50 p.tac_balance
  let p' := { p with tac_balance := p.tac_balance - penalty, health := 100 }
  (p', (save p' false c).1)

/-- Embedding of `Game.explore` with the `random.randint(10, 50)` draw
injected as `reward` and `CURRENT_TIMESTAMP = t`: credit the in-memory
balance, `add_item('TAC', reward)` (commits the inventory), `save`
(commits the players row and the inventory again), then unlock
achievement 1 when the reward is positive. -/
def explore (p : PlayerMem) (c : Conn) (reward : Int) (t : Nat) : PlayerMem × Conn :=
  let p1 := { p with tac_balance := p.tac_balance + reward }
  let pc2 := add_item p1 c "TAC" reward
  let c2 := (save pc2.1 false pc2.2).1
  if 0 < reward then (pc2.1, check_achievements pc2.1.username [1] t c2) else (pc2.1, c2)

/-! ### Password checking -/

/-- Behaviour of `bcrypt.checkpw(password, stored)`: when the stored digest
is not a well-formed bcrypt hash (empty string, junk), bcrypt raises
`ValueError`; otherwise it returns whether the password matches.
`hashValid` abstracts the digest's well-formedness, `pwMatches` the
comparison outcome. -/
def bcrypt_checkpw (hashValid pwMatches : Bool) : Except PyErr Bool :=
  if hashValid then .ok pwMatches else .error .valueError

/-- Embedding of `Player.check_password`: the bcrypt call inside
`try: ... except ValueError: return False`. -/
def check_password (hashValid pwMatches : Bool) : Except PyErr Bool :=
  match bcrypt_checkpw hashValid pwMatches with
  | .ok b => .ok b
  | .error .valueError => .ok false
  | .error e => .error e

/-! ### Sequences of inventory operations and of unlock calls -/

/-- An inventory operation of the Account Manager: `Player.add_item` or
`Player.remove_item` with arbitrary arguments. -/
inductive InvOp where
  | add (i : String) (q : Int)
  | remove (i : String) (q : Int)
deriving DecidableEq

/-- Effect of one inventory operation on the dict (the stored rows mirror
the dict after each operation's `save_inventory`). -/
def applyInvOp (inv : List (String × Int)) : InvOp → Except PyErr (List (String × Int))
  | .add i q => .ok (addItemInv inv i q)
  | .remove i q => (removeItemInv inv i q).map (·.2)

/-- Run a sequence of inventory operations; an exception aborts the run. -/
def runInvOps (inv : List (String × Int)) : List InvOp → Except PyErr (List (String × Int))
  | [] => .ok inv
  | op :: rest =>
      match applyInvOp inv op with
      | .ok inv' => runInvOps inv' rest
      | .error e => .error e

/-- Every entry of the inventory mapping has a strictly positive quantity. -/
def allPos (inv : List (String × Int)) : Prop := ∀ e ∈ inv, 0 < e.2

/-- On this inventory, every `remove_item` request exceeding the held
quantity returns `False` and leaves the mapping unchanged. -/
def removeFailsUnchanged (inv : List (String × Int)) : Prop :=
  ∀ i q, invGetD inv i < q → removeItemInv inv i q = .ok (false, inv)

/-- Repeated `Game.check_achievements` calls for one achievement id, one
call per timestamp in the list. -/
def unlockMany (c : Conn) (u : String) (aid : Nat) : List Nat → Conn
  | [] => c
  | t :: ts => unlockMany (check_achievements u [aid] t c) u aid ts

/-! ### Concrete stores used by the closed theorems -/

/-- Buyer "a" and seller "b", both with balance 100; seller "b" has one
open listing: id 1, item "g", unit price 10, quantity 2 (total 20). -/
def storeAB : Store :=
  ⟨[("a", ⟨"", 1, 100, 100⟩), ("b", ⟨"", 1, 100, 100⟩)], [], [⟨1, "b", "g", 10, 2⟩], []⟩

/-- Connection at rest over `storeAB`. -/
def connAB : Conn := ⟨storeAB, storeAB⟩

/-- In-memory `Player` object of the logged-in buyer "a". -/
def buyerA : PlayerMem := ⟨"a", "", 1, 100, 100, []⟩

/-- Durable snapshot of `purchase_listing buyerA connAB 1 7` right after
the nested `save_inventory` commit inside `add_item`: the same prefix of
the success path of `purchase_listing` — buyer debited in memory to 80,
seller's UPDATE pending — followed by `add_item`, whose inner transaction
commits the shared connection. -/
def midPurchase : Store :=
  (add_item { buyerA with tac_balance := 80 }
    { connAB with current :=
      { connAB.current with players := creditPlayer connAB.current.players "b" 20 } }
    "g" 2).2.durable

/-- Seller "n" holding five units of item "c". -/
def storeN : Store := ⟨[("n", ⟨"", 1, 100, 100⟩)], [("n", "c", 5)], [], []⟩

/-- Connection at rest over `storeN`. -/
def connN : Conn := ⟨storeN, storeN⟩

/-- In-memory `Player` object of the logged-in seller "n". -/
def sellerN : PlayerMem := ⟨"n", "", 1, 100, 100, [("c", 5)]⟩

/-- Buyer "w" with balance 40; seller "v" has listing id 1 at unit price
10 and quantity 5 (total 50 > 40). -/
def storeW : Store :=
  ⟨[("w", ⟨"", 1, 40, 100⟩), ("v", ⟨"", 1, 100, 100⟩)], [], [⟨1, "v", "g", 10, 5⟩], []⟩

/-- Connection at rest over `storeW`. -/
def connW : Conn := ⟨storeW, storeW⟩

/-- In-memory `Player` object of the logged-in buyer "w". -/
def buyerW : PlayerMem := ⟨"w", "", 1, 40, 100, []⟩

/-- The listing of `storeW`. -/
def listingW : Listing := ⟨1, "v", "g", 10, 5⟩

/-- Player "e" with an empty inventory and no unlocks. -/
def storeE : Store := ⟨[("e", ⟨"", 1, 100, 100⟩)], [], [], []⟩

/-- Connection at rest over `storeE`. -/
def connE : Conn := ⟨storeE, storeE⟩

/-- In-memory `Player` object of the logged-in player "e". -/
def playerE : PlayerMem := ⟨"e", "", 1, 100, 100, []⟩

/-! ### Helper lemmas about the table primitives -/

theorem find?_eq_none_of_any_eq_false {l : List α} {p : α → Bool}
    (h : l.any p = false) : l.find? p = none := by
  rw [List.find?_eq_none]
  intro x hx hpx
  have : l.any p = true := List.any_eq_true.2 ⟨x, hx, hpx⟩
  rw [h] at this
  exact Bool.false_ne_true this

theorem invLookup_invSet_aux (inv : List (String × Int)) (i : String) (v : Int)
    (h : inv.any (fun e => e.1 == i) = true) :
    (inv.map (fun e => if e.1 == i then (i, v) else e)).find? (fun e => e.1 == i) = some (i, v) := by
  induction inv with
  | nil => simp at h
  | cons a tl ih =>
      cases ha : (a.1 == i) with
      | true =>
          simp only [List.map_cons, ha, if_true]
          exact List.find?_cons_of_pos _ (beq_self_eq_true i)
      | false =>
          have h' : tl.any (fun e => e.1 == i) = true := by
            simpa [List.any_cons, ha] using h
          simp only [List.map_cons, ha, if_false]
          rw [List.find?_cons_of_neg _ (by simp [ha])]
          exact ih h'

theorem invLookup_invSet_self (inv : List (String × Int)) (i : String) (v : Int) :
    invLookup (invSet inv i v) i = some v := by
  unfold invSet
  cases hany : inv.any (fun e => e.1 == i) with
  | true =>
      rw [if_pos rfl]
      unfold invLookup
      rw [invLookup_invSet_aux inv i v hany]
      rfl
  | false =>
      rw [if_neg (by simp)]
      unfold invLookup
      rw [List.find?_append, find?_eq_none_of_any_eq_false hany]
      simp [List.find?_cons_of_pos, beq_self_eq_true]

theorem invGetD_addItemInv (inv : List (String × Int)) (i : String) (q : Int) :
    invGetD (addItemInv inv i q) i = invGetD inv i + q := by
  unfold addItemInv invGetD
  rw [invLookup_invSet_self]
  rfl

theorem findPlayer_upsert_self (ps : List (String × PlayerRow)) (u : String) (r : PlayerRow) :
    findPlayer (upsertPlayer ps u r) u = some r := by
  unfold findPlayer upsertPlayer
  rw [List.find?_cons]
  simp

theorem storedInv_save_tx (s : Store) (u : String) (inv : List (String × Int)) (i : String) :
    storedInv (save_inventory_tx s u inv) u i = invLookup inv i := by
  unfold storedInv save_inventory_tx
  rw [List.find?_append]
  have h1 : (s.inventory.filter (fun r => r.1 != u)).find?
      (fun r => r.1 == u && r.2.1 == i) = none := by
    rw [List.find?_eq_none]
    intro x hx
    rcases List.mem_filter.1 hx with ⟨-, hne⟩
    have : (x.1 == u) = false := by
      cases hxe : (x.1 == u) with
      | true => rw [bne, hxe] at hne; simp at hne
      | false => rfl
    simp [this]
  rw [h1]
  simp only [Option.or]
  rw [List.find?_map]
  have h2 : ((fun r : String × String × Int => r.1 == u && r.2.1 == i) ∘
      (fun e : String × Int => (u, e.1, e.2))) = (fun e : String × Int => e.1 == i) := by
    funext e
    simp [beq_self_eq_true]
  rw [h2, Option.map_map]
  rfl

theorem unlockRows_insertUnlock (R : List (String × Nat × Nat)) (u : String) (aid t : Nat) :
    unlockRows (insertUnlock R u aid t) u aid =
      (if hasUnlock R u aid then unlockRows R u aid else unlockRows R u aid ++ [t]) := by
  unfold insertUnlock
  cases h : hasUnlock R u aid with
  | true => simp [h]
  | false =>
      simp only [h, Bool.false_eq_true, if_false]
      unfold unlockRows
      rw [List.filterMap_append]
      simp [beq_self_eq_true]

theorem hasUnlock_append_self (R : List (String × Nat × Nat)) (u : String) (aid t : Nat) :
    hasUnlock (R ++ [(u, aid, t)]) u aid = true := by
  simp [hasUnlock, List.any_append, beq_self_eq_true]

theorem unlockRows_eq_nil (R : List (String × Nat × Nat)) (u : String) (aid : Nat)
    (h : hasUnlock R u aid = false) : unlockRows R u aid = [] := by
  unfold unlockRows
  rw [List.filterMap_eq_nil_iff]
  intro a ha
  have hfalse : (a.1 == u && a.2.1 == aid) = false := by
    cases hx : (a.1 == u && a.2.1 == aid) with
    | true =>
        have : hasUnlock R u aid = true := List.any_eq_true.2 ⟨a, ha, hx⟩
        rw [h] at this
        exact absurd this (by simp)
    | false => rfl
  simp [hfalse]

theorem check_achievements_single (u : String) (aid : Nat) (t : Nat) (c : Conn) :
    check_achievements u [aid] t c =
      commit { c with current :=
        { c.current with unlocks := insertUnlock c.current.unlocks u aid t } } := rfl

theorem check_achievements_of_hasUnlock (u : String) (aid : Nat) (t : Nat) (c : Conn)
    (h : hasUnlock c.current.unlocks u aid = true) :
    check_achievements u [aid] t c = commit c := by
  rw [check_achievements_single]
  unfold insertUnlock
  rw [if_pos h]

theorem commit_of_at_rest (c : Conn) (h : c.durable = c.current) : commit c = c := by
  cases c with
  | mk d cur =>
      simp only at h
      rw [commit, h]

theorem unlockMany_fixed (u : String) (aid : Nat) (ts : List Nat) :
    ∀ c : Conn, hasUnlock c.current.unlocks u aid = true → c.durable = c.current →
      unlockMany c u aid ts = c := by
  induction ts with
  | nil => intro c _ _; rfl
  | cons t ts ih =>
      intro c h hd
      unfold unlockMany
      rw [check_achievements_of_hasUnlock u aid t c h, commit_of_at_rest c hd]
      exact ih c h hd

/-! ### Positivity of inventory quantities -/

theorem invGetD_nonneg (inv : List (String × Int)) (i : String) (h : allPos inv) :
    0 ≤ invGetD inv i := by
  unfold invGetD invLookup
  cases hf : inv.find? (fun e => e.1 == i) with
  | none => simp
  | some e =>
      have := h e (List.mem_of_find?_eq_some hf)
      simpa using this.le

theorem allPos_invSet (inv : List (String × Int)) (i : String) (v : Int)
    (h : allPos inv) (hv : 0 < v) : allPos (invSet inv i v) := by
  intro e he
  unfold invSet at he
  split at he
  · rcases List.mem_map.1 he with ⟨a, ha, hfa⟩
    by_cases haa : (a.1 == i) = true
    · rw [if_pos haa] at hfa
      rw [← hfa]
      exact hv
    · rw [if_neg haa] at hfa
      rw [← hfa]
      exact h a ha
  · rcases List.mem_append.1 he with h1 | h1
    · exact h e h1
    · rw [List.mem_singleton.1 h1]
      exact hv

theorem allPos_invDelete (inv : List (String × Int)) (i : String) (h : allPos inv) :
    allPos (invDelete inv i) := by
  intro e he
  exact h e (List.mem_filter.1 he).1

theorem allPos_addItemInv (inv : List (String × Int)) (i : String) (q : Int)
    (h : allPos inv) (hq : 0 < q) : allPos (addItemInv inv i q) := by
  unfold addItemInv
  exact allPos_invSet inv i _ h (by have := invGetD_nonneg inv i h; omega)

theorem allPos_removeItemInv (inv inv' : List (String × Int)) (i : String) (q : Int) (b : Bool)
    (h : allPos inv) (hr : removeItemInv inv i q = .ok (b, inv')) : allPos inv' := by
  unfold removeItemInv at hr
  split at hr
  case isTrue hge =>
    cases hli : invLookup inv i with
    | none => rw [hli] at hr; cases hr
    | some held =>
        rw [hli] at hr
        simp only [Except.ok.injEq, Prod.mk.injEq] at hr
        rw [← hr.2]
        split
        · exact allPos_invDelete inv i h
        case isFalse hne =>
          have hgd : invGetD inv i = held := by unfold invGetD; rw [hli]; rfl
          rw [hgd] at hge
          exact allPos_invSet inv i _ h (by omega)
  case isFalse =>
    simp only [Except.ok.injEq, Prod.mk.injEq] at hr
    rw [← hr.2]
    exact h

theorem removeItemInv_fails (inv : List (String × Int)) (i : String) (q : Int)
    (hlt : invGetD inv i < q) : removeItemInv inv i q = .ok (false, inv) := by
  unfold removeItemInv
  rw [if_neg (not_le.2 hlt)]

/-! ### Effect of `Player.save` on the durable store (normal operation) -/

theorem save_durable_players (p : PlayerMem) (c : Conn) :
    findPlayer ((save p false c).1).durable.players p.username =
      some ⟨p.password_hash, p.level, p.tac_balance, p.health⟩ := by
  have h : ((save p false c).1).durable.players =
      upsertPlayer c.current.players p.username
        ⟨p.password_hash, p.level, p.tac_balance, p.health⟩ := rfl
  rw [h, findPlayer_upsert_self]

theorem save_durable_inventory (p : PlayerMem) (c : Conn) (i : String) :
    storedInv ((save p false c).1).durable p.username i = invLookup p.inventory i := by
  have h : ((save p false c).1).durable =
      save_inventory_tx
        { c.current with
          players := upsertPlayer c.current.players p.username ⟨p.password_hash, p.level, p.tac_balance, p.health⟩ }
        p.username p.inventory := rfl
  rw [h, storedInv_save_tx]

theorem unlockRows_append_self (R : List (String × Nat × Nat)) (u : String) (aid t : Nat) :
    unlockRows (R ++ [(u, aid, t)]) u aid = unlockRows R u aid ++ [t] := by
  unfold unlockRows
  rw [List.filterMap_append]
  simp [beq_self_eq_true]

theorem runInvOps_allPos (ops : List InvOp) :
    ∀ inv₀ inv', (∀ i q, InvOp.add i q ∈ ops → 0 < q) → allPos inv₀ →
      runInvOps inv₀ ops = .ok inv' → allPos inv' := by
  induction ops with
  | nil =>
      intro inv₀ inv' _ h0 hrun
      simp only [runInvOps] at hrun
      cases hrun
      exact h0
  | cons op rest ih =>
      intro inv₀ inv' hadd h0 hrun
      cases op with
      | add i q =>
          simp only [runInvOps, applyInvOp] at hrun
          exact ih (addItemInv inv₀ i q) inv'
            (fun i' q' h' => hadd i' q' (List.mem_cons_of_mem _ h'))
            (allPos_addItemInv inv₀ i q h0 (hadd i q (List.mem_cons_self _ _))) hrun
      | remove i q =>
          cases hrm : removeItemInv inv₀ i q with
          | error e =>
              simp only [runInvOps, applyInvOp, hrm, Except.map] at hrun
              exact absurd hrun (by simp)
          | ok r =>
              simp only [runInvOps, applyInvOp, hrm, Except.map] at hrun
              exact ih r.2 inv'
                (fun i' q' h' => hadd i' q' (List.mem_cons_of_mem _ h'))
                (allPos_removeItemInv inv₀ r.2 i q r.1 h0 (by rw [hrm])) hrun

theorem remove_item_of_lookup (p : PlayerMem) (c : Conn) (i : String) (q a : Int)
    (hi : invLookup p.inventory i = some a) (hq : q ≤ a) :
    remove_item p c i q = .ok (true,
      { p with inventory :=
          if a - q = 0 then invDelete p.inventory i else invSet p.inventory i (a - q) },
      save_inventory
        { p with inventory :=
            if a - q = 0 then invDelete p.inventory i else invSet p.inventory i (a - q) } c) := by
  have hge : invGetD p.inventory i ≥ q := by
    unfold invGetD
    rw [hi]
    simpa using hq
  unfold remove_item removeItemInv
  rw [if_pos hge, hi]

/-! ### Claim theorems -/

/-- C10: `Player.check_password` never propagates an error, and on a stored
credential digest that is empty or malformed (where `bcrypt.checkpw` raises
`ValueError`, modelled by `hashValid = false`) it returns `False` instead of
crashing; on a well-formed digest it returns the comparison outcome.  The
four conjuncts cover every input of the embedding. -/
theorem check_password_total :
    check_password false true = .ok false
  ∧ check_password false false = .ok false
  ∧ check_password true true = .ok true
  ∧ check_password true false = .ok false := ⟨rfl, rfl, rfl, rfl⟩

/-- C2 (amended): whenever the body of an open `DatabaseManager.transaction`
raises, the store rolls back — the pending state is reset to the durable
state, so none of the failed transaction's writes become visible — and the
exception is re-raised to the transaction's immediate caller.  (The original
claim's further statement that the error always reaches the caller without
being swallowed fails at `Player.save`; see the counterexample.) -/
theorem transaction_rollback_propagates {α : Type} (c : Conn)
    (body : Store → Except PyErr (Store × α)) (e : PyErr)
    (h : body c.current = .error e) :
    withTransaction c body = ({ c with current := c.durable }, .error e) := by
  unfold withTransaction
  rw [h]

/-- Witness for `transaction_rollback_propagates` at a concrete connection
and a body that raises `StorageFailure`. -/
theorem transaction_rollback_witness :
    withTransaction connE
        (fun _ => (Except.error PyErr.storageError : Except PyErr (Store × Unit))) =
      ({ connE with current := connE.durable }, .error .storageError) :=
  transaction_rollback_propagates connE
    (fun _ => (Except.error PyErr.storageError : Except PyErr (Store × Unit)))
    .storageError rfl

/-- C2 (counterexample): `Player.save` catches the exception propagated by
the rolled-back transaction and returns normally (`.ok ()`), so an error
raised while saving — here a `StorageFailure` during the players-row write —
never reaches `save`'s caller, contradicting the claim that the error
propagates rather than being silently swallowed. -/
theorem save_swallows_error : save buyerA true connAB = (connAB, Except.ok ()) := rfl

/-- C3: a purchase whose listing exists but whose total price exceeds the
buyer's balance returns the insufficient-funds outcome and leaves the
in-memory player, the durable store, and the pending state — hence the
listing row, both balances and both inventories — completely unchanged. -/
theorem purchase_insufficient_funds_unchanged (p : PlayerMem) (c : Conn) (lid : Nat) (t : Nat)
    (l : Listing) (hrest : c.durable = c.current)
    (hl : mktFind c.current.marketplace lid = some l)
    (hb : p.tac_balance < l.price * l.quantity) :
    purchase_listing p c lid t = (p, c, PurchaseResult.insufficientFunds) := by
  unfold purchase_listing
  rw [hl]
  dsimp only
  rw [if_pos hb, commit_of_at_rest c hrest]

/-- Witness for `purchase_insufficient_funds_unchanged`: buyer balance 40
against a listing of unit price 10 and quantity 5 (total 50) fails and
changes nothing. -/
theorem purchase_insufficient_funds_witness :
    purchase_listing buyerW connW 1 0 = (buyerW, connW, PurchaseResult.insufficientFunds) :=
  purchase_insufficient_funds_unchanged buyerW connW 1 0 listingW rfl rfl (by decide)

/-- C7: `Game.handle_defeat` debits exactly `min 50 balance` from the
in-memory account (the resulting balance is never negative), resets health
to 100, and persists the mutated players row — balance and health together
in the single `save_player` transaction — before returning. -/
theorem handle_defeat_penalty (p : PlayerMem) (c : Conn) :
    (handle_defeat p c).1.tac_balance = p.tac_balance - min 50 p.tac_balance
  ∧ (handle_defeat p c).1.health = 100
  ∧ 0 ≤ (handle_defeat p c).1.tac_balance
  ∧ findPlayer ((handle_defeat p c).2).durable.players p.username =
      some ⟨p.password_hash, p.level, p.tac_balance - min 50 p.tac_balance, 100⟩ := by
  refine ⟨rfl, rfl, ?_, ?_⟩
  · show 0 ≤ p.tac_balance - min 50 p.tac_balance
    rw [min_def]
    split <;> omega
  · exact save_durable_players
      { p with tac_balance := p.tac_balance - min 50 p.tac_balance, health := 100 } c

/-- C5 (counterexample): `add_item` with quantity 0 on an item the player
does not hold stores an inventory row with quantity 0, so it is not true
that after an arbitrary sequence of add/remove operations every stored
inventory entry has strictly positive quantity. -/
theorem stored_zero_quantity_entry :
    ¬ (∀ e ∈ (add_item playerE connE "x" 0).2.durable.inventory, 0 < e.2.2) := by
  decide

/-- C5 (amended): after any sequence of `add_item`/`remove_item` operations
in which every `add_item` uses a strictly positive quantity, starting from
an all-positive inventory, every entry of the resulting inventory mapping
is strictly positive (an entry reaching 0 is deleted, and a successful
removal never goes below zero); moreover, on the resulting inventory every
removal request exceeding the held quantity returns `False` and leaves the
mapping unchanged. -/
theorem inventory_positive_invariant (ops : List InvOp) (inv₀ inv' : List (String × Int))
    (hadd : ∀ i q, InvOp.add i q ∈ ops → 0 < q)
    (h0 : allPos inv₀) (hrun : runInvOps inv₀ ops = .ok inv') :
    allPos inv' ∧ removeFailsUnchanged inv' :=
  ⟨runInvOps_allPos ops inv₀ inv' hadd h0 hrun,
   fun i q hlt => removeItemInv_fails inv' i q hlt⟩

/-- Witness for `inventory_positive_invariant`: the sequence
add "x" 2 then remove "x" 1, starting from the empty inventory. -/
theorem inventory_positive_invariant_witness :
    allPos [("x", (1 : Int))] ∧ removeFailsUnchanged [("x", (1 : Int))] :=
  inventory_positive_invariant [InvOp.add "x" 2, InvOp.remove "x" 1] [] [("x", 1)]
    (by
      intro i q h
      simp only [List.mem_cons, List.not_mem_nil, or_false] at h
      rcases h with h | h
      · injection h with h1 h2
        rw [h2]
        decide
      · exact InvOp.noConfusion h)
    (fun e he => absurd he (List.not_mem_nil e))
    rfl

/-- C6: for any starting state in which the (account, achievement) pair has
no unlock row, any number n ≥ 1 of `check_achievements` calls for that pair
— at timestamps t, ts — leaves exactly one durable unlock row for the pair,
carrying the timestamp of the first call; the repeated calls are ignored by
INSERT OR IGNORE (no error, no duplicate, no timestamp change). -/
theorem unlock_idempotent (c : Conn) (u : String) (aid : Nat) (t : Nat) (ts : List Nat)
    (h0 : hasUnlock c.current.unlocks u aid = false) :
    unlockRows (unlockMany c u aid (t :: ts)).durable.unlocks u aid = [t] := by
  have hins : insertUnlock c.current.unlocks u aid t = c.current.unlocks ++ [(u, aid, t)] := by
    unfold insertUnlock
    rw [if_neg (by simp [h0])]
  have hcur : (check_achievements u [aid] t c).current.unlocks =
      c.current.unlocks ++ [(u, aid, t)] := by
    rw [check_achievements_single]
    exact hins
  have hdur : (check_achievements u [aid] t c).durable =
      (check_achievements u [aid] t c).current := rfl
  have hhas : hasUnlock (check_achievements u [aid] t c).current.unlocks u aid = true := by
    rw [hcur]
    exact hasUnlock_append_self _ u aid t
  show unlockRows (unlockMany (check_achievements u [aid] t c) u aid ts).durable.unlocks u aid = [t]
  rw [unlockMany_fixed u aid ts _ hhas hdur, hdur, hcur, unlockRows_append_self,
    unlockRows_eq_nil _ _ _ h0]
  rfl

/-- Witness for `unlock_idempotent`: two calls (timestamps 4 then 9) on a
fresh pair leave one row with timestamp 4. -/
theorem unlock_idempotent_witness :
    unlockRows (unlockMany connE "e" 2 (4 :: [9])).durable.unlocks "e" 2 = [4] :=
  unlock_idempotent connE "e" 2 4 [9] rfl

/-- C9: for any reward r with 10 ≤ r ≤ 50 (the range `random.randint(10, 50)`
draws from), a successful `Game.explore` increases the in-memory balance by
exactly r, increases the 'TAC' inventory quantity by exactly r, persists
both to the durable store, and unlocks achievement 1 idempotently — the
unlock row is created at this call's timestamp only when the pair had no
row yet, and an existing row is left untouched. -/
theorem explore_effects (p : PlayerMem) (c : Conn) (r : Int) (t : Nat)
    (hlo : 10 ≤ r) (hhi : r ≤ 50) :
    (explore p c r t).1.tac_balance = p.tac_balance + r
  ∧ invGetD (explore p c r t).1.inventory "TAC" = invGetD p.inventory "TAC" + r
  ∧ findPlayer ((explore p c r t).2).durable.players p.username =
      some ⟨p.password_hash, p.level, p.tac_balance + r, p.health⟩
  ∧ storedInv ((explore p c r t).2).durable p.username "TAC" =
      some (invGetD p.inventory "TAC" + r)
  ∧ unlockRows ((explore p c r t).2).durable.unlocks p.username 1 =
      (if hasUnlock c.current.unlocks p.username 1 then
        unlockRows c.current.unlocks p.username 1
      else unlockRows c.current.unlocks p.username 1 ++ [t]) := by
  have hr : 0 < r := by omega
  have hexp : explore p c r t =
      ( { p with
            tac_balance := p.tac_balance + r,
            inventory := addItemInv p.inventory "TAC" r },
        check_achievements p.username [1] t
          ((save
              { p with
                  tac_balance := p.tac_balance + r,
                  inventory := addItemInv p.inventory "TAC" r } false
              (save_inventory
                { p with
                    tac_balance := p.tac_balance + r,
                    inventory := addItemInv p.inventory "TAC" r } c)).1) ) := by
    simp only [explore, add_item]
    rw [if_pos hr]
  rw [hexp]
  refine ⟨rfl, invGetD_addItemInv p.inventory "TAC" r, ?_, ?_, ?_⟩
  · exact save_durable_players
      { p with
          tac_balance := p.tac_balance + r,
          inventory := addItemInv p.inventory "TAC" r }
      (save_inventory
        { p with
            tac_balance := p.tac_balance + r,
            inventory := addItemInv p.inventory "TAC" r } c)
  · exact (save_durable_inventory
      { p with
          tac_balance := p.tac_balance + r,
          inventory := addItemInv p.inventory "TAC" r }
      (save_inventory
        { p with
            tac_balance := p.tac_balance + r,
            inventory := addItemInv p.inventory "TAC" r } c) "TAC").trans
      (invLookup_invSet_self p.inventory "TAC" (invGetD p.inventory "TAC" + r))
  · exact unlockRows_insertUnlock c.current.unlocks p.username 1 t

/-- Witness for `explore_effects`: player "e" mining reward 10 at
timestamp 5. -/
theorem explore_effects_witness :
    (explore playerE connE 10 5).1.tac_balance = playerE.tac_balance + 10
  ∧ invGetD (explore playerE connE 10 5).1.inventory "TAC" =
      invGetD playerE.inventory "TAC" + 10
  ∧ findPlayer ((explore playerE connE 10 5).2).durable.players playerE.username =
      some ⟨playerE.password_hash, playerE.level, playerE.tac_balance + 10, playerE.health⟩
  ∧ storedInv ((explore playerE connE 10 5).2).durable playerE.username "TAC" =
      some (invGetD playerE.inventory "TAC" + 10)
  ∧ unlockRows ((explore playerE connE 10 5).2).durable.unlocks playerE.username 1 =
      (if hasUnlock connE.current.unlocks playerE.username 1 then
        unlockRows connE.current.unlocks playerE.username 1
      else unlockRows connE.current.unlocks playerE.username 1 ++ [5]) :=
  explore_effects playerE connE 10 5 (by decide) (by decide)

/-- C1 (code evaluated at the failing input): buyer "a" (balance 100, in
memory and durably) purchases listing 1 of seller "b" (item "g", unit price
10, quantity 2, total 20).  The purchase reports success and debits the
in-memory buyer to 80, but the durable store keeps the buyer's players row
at balance 100 while the seller's row is already credited to 120 — the
buyer's debit is never written inside the purchase transaction.  Moreover
`midPurchase`, the durable snapshot at the nested `save_inventory` commit
inside `add_item`, shows the seller credited to 120 while the listing row
is still present and the buyer's row still reads 100: a durably observable
intermediate state of the supposedly atomic five-step purchase. -/
theorem purchase_commits_partial_state :
    (purchase_listing buyerA connAB 1 7).2.2 = PurchaseResult.success
  ∧ (purchase_listing buyerA connAB 1 7).1.tac_balance = 80
  ∧ findPlayer ((purchase_listing buyerA connAB 1 7).2.1).durable.players "a" =
      some ⟨"", 1, 100, 100⟩
  ∧ findPlayer ((purchase_listing buyerA connAB 1 7).2.1).durable.players "b" =
      some ⟨"", 1, 120, 100⟩
  ∧ mktFind ((purchase_listing buyerA connAB 1 7).2.1).durable.marketplace 1 = none
  ∧ mktFind midPurchase.marketplace 1 = some ⟨1, "b", "g", 10, 2⟩
  ∧ findPlayer midPurchase.players "b" = some ⟨"", 1, 120, 100⟩
  ∧ findPlayer midPurchase.players "a" = some ⟨"", 1, 100, 100⟩ := by
  refine ⟨rfl, rfl, rfl, rfl, rfl, rfl, rfl, rfl⟩

/-- C4 (code evaluated at the failing input): seller "n" holds five units
of "c" and lists three at unit price 10.  After the first transaction of
`create_listing` (the INSERT, `create_listing_insert`) commits, the durable
store already contains the listing while the seller's durable inventory
still shows five units — the deduction only happens in `remove_item`'s
separate second transaction, whose final state the third conjunct shows. -/
theorem create_listing_two_transactions :
    mktFind (create_listing_insert connN "n" "c" 10 3).durable.marketplace 1 =
      some ⟨1, "n", "c", 10, 3⟩
  ∧ storedInv (create_listing_insert connN "n" "c" 10 3).durable "n" "c" = some 5
  ∧ (create_listing sellerN connN "c" 3 10).map
      (fun res => (storedInv res.2.1.durable "n" "c",
        mktFind res.2.1.durable.marketplace 1, res.2.2)) =
      .ok (some 2, some ⟨1, "n", "c", 10, 3⟩, CreateResult.success) := by
  refine ⟨rfl, rfl, rfl⟩

/-- C8 (counterexample): `create_listing` accepts a negative unit price:
with seller "n" holding five units of "c", listing three at unit price -7
succeeds and inserts a listing row with price -7, instead of failing with
`InvalidArgument` as the claim states. -/
theorem create_listing_accepts_nonpositive :
    (create_listing sellerN connN "c" 3 (-7)).map
      (fun res => ((mktFind res.2.1.durable.marketplace 1).map Listing.price, res.2.2)) =
      .ok (some (-7), CreateResult.success) := rfl

/-- C8 (amended): `Game.create_listing` performs no positivity validation
of price or quantity: every call whose item is held with quantity at least
the requested one succeeds and inserts a listing row carrying exactly the
given — possibly zero or negative — unit price and quantity; no
`InvalidArgument` failure path exists in the code. -/
theorem create_listing_no_validation (p : PlayerMem) (c : Conn) (i : String)
    (q price a : Int) (hi : invLookup p.inventory i = some a) (hq : q ≤ a) :
    ∃ p' c', create_listing p c i q price = .ok (p', c', CreateResult.success)
      ∧ (⟨nextListingId c.current.marketplace, p.username, i, price, q⟩ : Listing)
          ∈ c'.durable.marketplace := by
  have hcl : create_listing p c i q price = .ok
      ( { p with inventory :=
            if a - q = 0 then invDelete p.inventory i else invSet p.inventory i (a - q) },
        save_inventory
          { p with inventory :=
              if a - q = 0 then invDelete p.inventory i else invSet p.inventory i (a - q) }
          (create_listing_insert c p.username i price q),
        CreateResult.success) := by
    unfold create_listing
    rw [hi]
    dsimp only
    rw [if_neg (not_lt.2 hq),
      remove_item_of_lookup p (create_listing_insert c p.username i price q) i q a hi hq]
  refine ⟨_, _, hcl, ?_⟩
  have hmkt : (save_inventory
      { p with inventory :=
          if a - q = 0 then invDelete p.inventory i else invSet p.inventory i (a - q) }
      (create_listing_insert c p.username i price q)).durable.marketplace =
      c.current.marketplace ++
        [⟨nextListingId c.current.marketplace, p.username, i, price, q⟩] := rfl
  rw [hmkt]
  exact List.mem_append_right _ (List.mem_singleton.2 rfl)

/-- Witness for `create_listing_no_validation`: seller "n" holding five
units of "c" lists zero units at unit price -7; the call succeeds and the
listing row with price -7 and quantity 0 is inserted. -/
theorem create_listing_no_validation_witness :
    ∃ p' c', create_listing sellerN connN "c" 0 (-7) = .ok (p', c', CreateResult.success)
      ∧ (⟨1, "n", "c", -7, 0⟩ : Listing) ∈ c'.durable.marketplace :=
  create_listing_no_validation sellerN connN "c" 0 (-7) 5 rfl (by decide)

end Terminusa
